import Mathlib

set_option maxRecDepth 100000

/-!
Verification development for the COW snapshot reader core
(`fs_mgr/libsnapshot/cow_reader.cpp`) and the snapshot daemon control client
(`fs_mgr/libsnapshot/snapuserd_client.cpp`).

The reader is embedded shallowly: a file is a list of bytes (naturals below
256), the on-disk header is decoded little-endian, and every fallible
operation returns `Except CowError`.  Machine integers are modelled as `Nat`
with explicit `% 2 ^ 64` where the C++ arithmetic can wrap.  The daemon
client is embedded against an explicit environment (`DaemonWorld`) supplying
the outcomes of socket connects, sends and received replies.
-/

deriving instance DecidableEq for Except

/-- Error taxonomy of the reader, following the classification the
specification assigns to each failing branch of the source. -/
inductive CowError where
  | IoError
  | RangeError
  | BadMagic
  | HeaderSizeMismatch
  | UnsupportedVersion
  | ChecksumMismatch
deriving DecidableEq, Repr

/-- Modelled from the spec: `kCowMagicNumber` is declared in
`libsnapshot/cow_reader.h`, which is not part of the sources; the spec fixes
the value `0x55667788`. -/
def kCowMagicNumber : Nat := 0x55667788

/-- Modelled from the spec: the major version is a compile-time constant
declared outside the sources; its concrete value is not given, and no claim
depends on it. -/
def kCowVersionMajor : Nat := 1

/-- Modelled from the spec: the minor version is a compile-time constant
declared outside the sources; its concrete value is not given, and no claim
depends on it. -/
def kCowVersionMinor : Nat := 0

/-- Modelled from the spec: `sizeof(CowHeader)` for the packed little-endian
layout of §3/§6 — magic u32, major u16, minor u16, header_size u32,
block_size u32, ops_offset u64, ops_size u64, two 32-byte checksums. -/
def sizeofCowHeader : Nat := 96

/-- Modelled from the spec: `sizeof(CowOperation)` for the packed record
`type:u8, compression:u8, _pad:u16, data_length:u64, new_block:u64,
source:u64`. -/
def sizeofCowOperation : Nat := 28

/-- The in-memory header record, mirroring `CowHeader`.  Checksums are kept
as their raw 32 bytes. -/
structure CowHeader where
  magic : Nat
  major_version : Nat
  minor_version : Nat
  header_size : Nat
  block_size : Nat
  ops_offset : Nat
  ops_size : Nat
  header_checksum : List Nat
  ops_checksum : List Nat
deriving DecidableEq, Repr

/-- Little-endian value of the `n` bytes of `l` starting at index `i`
(missing bytes read as 0, matching a zero-filled buffer). -/
def leVal (l : List Nat) (i : Nat) : Nat → Nat
  | 0 => 0
  | m + 1 => l.getD i 0 + 256 * leVal l (i + 1) m

/-- Modelled from the spec: decoding of the packed `CowHeader` struct from
its 96 on-disk bytes, field order and widths per §3/§6 (the struct
declaration itself lives in the missing `cow_reader.h`). -/
def decodeHeader (b : List Nat) : CowHeader :=
  { magic := leVal b 0 4
    major_version := leVal b 4 2
    minor_version := leVal b 6 2
    header_size := leVal b 8 4
    block_size := leVal b 12 4
    ops_offset := leVal b 16 8
    ops_size := leVal b 24 8
    header_checksum := (b.drop 32).take 32
    ops_checksum := (b.drop 64).take 32 }

/-- The source's `SHA256` function is a no-op stub (its body is compiled out
with `#if 0`): the 32-byte output buffer, which every caller zero-initialises
beforehand, is left untouched, so each computed digest is 32 zero bytes. -/
def SHA256stub : List Nat := List.replicate 32 0

/-- The validation sequence of `CowReader::Parse` after the header bytes
were read, in source order — ops range (`RangeError`), magic (`BadMagic`),
declared header size (`HeaderSizeMismatch`), versions
(`UnsupportedVersion`), and the header checksum computed by the stub
(`ChecksumMismatch`). -/
def parseChecks (fdSize : Nat) (h : CowHeader) : Except CowError CowHeader :=
  if h.ops_offset ≥ fdSize then .error .RangeError
  else if fdSize - h.ops_offset < h.ops_size then .error .RangeError
  else if h.magic ≠ kCowMagicNumber then .error .BadMagic
  else if h.header_size ≠ sizeofCowHeader then .error .HeaderSizeMismatch
  else if h.major_version ≠ kCowVersionMajor ∨ h.minor_version ≠ kCowVersionMinor then
    .error .UnsupportedVersion
  else if SHA256stub ≠ h.header_checksum then .error .ChecksumMismatch
  else .ok h

/-- `CowReader::Parse`: determine the file size via `lseek`, read the 96
header bytes fully (`IoError` when the file is shorter), then run the
validation sequence. -/
def Parse (file : List Nat) : Except CowError CowHeader :=
  if file.length < sizeofCowHeader then .error .IoError
  else parseChecks file.length (decodeHeader (file.take sizeofCowHeader))

/-- `CowOpIter`: owned op buffer, byte cursor and done flag (the two source
pointers `pos_`/`end_` become the cursor and the buffer length). -/
structure CowOpIter where
  ops : List Nat
  pos : Nat
  done : Bool
deriving DecidableEq, Repr

/-- `CowOpIter::HasNext`: `pos_ < end_ && size_t(end_ - pos_) >= sizeof(CowOperation)`. -/
def hasNextAt (ops : List Nat) (pos : Nat) : Bool :=
  decide (pos < ops.length ∧ sizeofCowOperation ≤ ops.length - pos)

/-- `CowOpIter::CowOpIter`: cursor at the start, done exactly when no whole
record remains. -/
def CowOpIter.init (buf : List Nat) : CowOpIter :=
  { ops := buf, pos := 0, done := !hasNextAt buf 0 }

/-- `CowOpIter::Done`. -/
def CowOpIter.Done (it : CowOpIter) : Bool := it.done

/-- `CowOpIter::Get`: the record at the cursor (callers must not be done). -/
def CowOpIter.Get (it : CowOpIter) : List Nat :=
  (it.ops.drop it.pos).take sizeofCowOperation

/-- `CowOpIter::Next`: advance by one record; mark done when no whole record
remains (callers must not be done, so the flag was false). -/
def CowOpIter.Next (it : CowOpIter) : CowOpIter :=
  { ops := it.ops, pos := it.pos + sizeofCowOperation
    done := !hasNextAt it.ops (it.pos + sizeofCowOperation) }

/-- `CowReader::GetOpIter`: seek to `ops_offset`, read `ops_size` bytes fully
(`IoError` when the file ends first), verify the op-table checksum computed
by the stub (`ChecksumMismatch`), and hand the buffer to a fresh iterator. -/
def GetOpIter (file : List Nat) (h : CowHeader) : Except CowError CowOpIter :=
  if file.length < h.ops_offset + h.ops_size then .error .IoError
  else if SHA256stub ≠ h.ops_checksum then .error .ChecksumMismatch
  else .ok (CowOpIter.init ((file.drop h.ops_offset).take h.ops_size))

/-- Drive the iterator through `Done`/`Get`/`Next` exactly as a consumer
would, collecting the records; `fuel` bounds the number of steps. -/
def collectOps (it : CowOpIter) : Nat → List (List Nat)
  | 0 => []
  | fuel + 1 => if it.Done then [] else it.Get :: collectOps it.Next fuel

/-- `CowReader::GetRawBytes`: the guard is the source expression
`offset < sizeof(header_) || offset >= ops_offset || len >= fd_size ||
offset + len > ops_offset`, with the 64-bit sum modelled as `% 2 ^ 64`; a
guarded-out request returns `RangeError` with no read issued.  Otherwise a
single `::read` is issued, whose outcome `rv` is environment-chosen: `none`
models a negative return (`IoError`), `some r` models `r` bytes read, which
the function reports as success.  The second component counts the read calls
issued. -/
def GetRawBytes (file : List Nat) (h : CowHeader) (offset len : Nat)
    (rv : Option Nat) : Except CowError Nat × Nat :=
  if offset < sizeofCowHeader ∨ h.ops_offset ≤ offset ∨ file.length ≤ len ∨
      h.ops_offset < (offset + len) % 2 ^ 64 then
    (.error .RangeError, 0)
  else
    match rv with
    | none => (.error .IoError, 1)
    | some r => (.ok r, 1)

/-- A legal outcome of one `::read` of `len` bytes at `offset`: the kernel
returns at most the requested length and at most the bytes remaining before
end of file. -/
def validReadCount (file : List Nat) (offset len r : Nat) : Prop :=
  r ≤ len ∧ r ≤ file.length - offset

/-- Truncation to a 32-bit word. -/
def w32 (x : Nat) : Nat := x % 4294967296

/-- Right rotation of a 32-bit word by `n`. -/
def rotr32 (n x : Nat) : Nat := (x >>> n) ||| w32 (x <<< (32 - n))

/-- SHA-256 Σ0. -/
def bigSigma0 (x : Nat) : Nat := rotr32 2 x ^^^ rotr32 13 x ^^^ rotr32 22 x

/-- SHA-256 Σ1. -/
def bigSigma1 (x : Nat) : Nat := rotr32 6 x ^^^ rotr32 11 x ^^^ rotr32 25 x

/-- SHA-256 σ0. -/
def smallSigma0 (x : Nat) : Nat := rotr32 7 x ^^^ rotr32 18 x ^^^ (x >>> 3)

/-- SHA-256 σ1. -/
def smallSigma1 (x : Nat) : Nat := rotr32 17 x ^^^ rotr32 19 x ^^^ (x >>> 10)

/-- SHA-256 round constants. -/
def sha256K : List Nat :=
  [1116352408, 1899447441, 3049323471, 3921009573, 961987163, 1508970993,
   2453635748, 2870763221, 3624381080, 310598401, 607225278, 1426881987,
   1925078388, 2162078206, 2614888103, 3248222580, 3835390401, 4022224774,
   264347078, 604807628, 770255983, 1249150122, 1555081692, 1996064986,
   2554220882, 2821834349, 2952996808, 3210313671, 3336571891, 3584528711,
   113926993, 338241895, 666307205, 773529912, 1294757372, 1396182291,
   1695183700, 1986661051, 2177026350, 2456956037, 2730485921, 2820302411,
   3259730800, 3345764771, 3516065817, 3600352804, 4094571909, 275423344,
   430227734, 506948616, 659060556, 883997877, 958139571, 1322822218,
   1537002063, 1747873779, 1955562222, 2024104815, 2227730452, 2361852424,
   2428436474, 2756734187, 3204031479, 3329325298]

/-- SHA-256 initial hash state. -/
def sha256H0 : List Nat :=
  [1779033703, 3144134277, 1013904242, 2773480762,
   1359893119, 2600822924, 528734635, 1541459225]

/-- Extend a 16-word message schedule by the given number of words. -/
def sha256Extend (ws : List Nat) : Nat → List Nat
  | 0 => ws
  | n + 1 =>
    let t := ws.length
    let x := w32 (smallSigma1 (ws.getD (t - 2) 0) + ws.getD (t - 7) 0 +
      smallSigma0 (ws.getD (t - 15) 0) + ws.getD (t - 16) 0)
    sha256Extend (ws ++ [x]) n

/-- One SHA-256 compression round on the eight-word state. -/
def sha256Round (st : List Nat) (ki wi : Nat) : List Nat :=
  let a := st.getD 0 0
  let b := st.getD 1 0
  let c := st.getD 2 0
  let d := st.getD 3 0
  let e := st.getD 4 0
  let f := st.getD 5 0
  let g := st.getD 6 0
  let hh := st.getD 7 0
  let t1 := w32 (hh + bigSigma1 e + ((e &&& f) ^^^ ((e ^^^ 0xffffffff) &&& g)) + ki + wi)
  let t2 := w32 (bigSigma0 a + ((a &&& b) ^^^ (a &&& c) ^^^ (b &&& c)))
  [w32 (t1 + t2), a, b, c, w32 (d + t1), e, f, g]

/-- Fuel-driven worker for `chunksOf` (structural, so it reduces in the
kernel). -/
def chunksGo (n : Nat) : Nat → List Nat → List (List Nat)
  | 0, _ => []
  | fuel + 1, l =>
    if n ≠ 0 ∧ n ≤ l.length then l.take n :: chunksGo n fuel (l.drop n) else []

/-- Split a byte list into complete chunks of `n` bytes, dropping a partial
tail. -/
def chunksOf (n : Nat) (l : List Nat) : List (List Nat) :=
  chunksGo n l.length l

/-- Big-endian 32-bit word from four bytes. -/
def beWord (c : List Nat) : Nat :=
  c.getD 0 0 * 16777216 + c.getD 1 0 * 65536 + c.getD 2 0 * 256 + c.getD 3 0

/-- SHA-256 compression of one 64-byte block into the running state. -/
def sha256Compress (h : List Nat) (block : List Nat) : List Nat :=
  let ws := sha256Extend ((chunksOf 4 block).map beWord) 48
  let st := (List.zip sha256K ws).foldl (fun st p => sha256Round st p.1 p.2) h
  List.zipWith (fun a b => w32 (a + b)) h st

/-- Truncation to a byte. -/
def w8 (x : Nat) : Nat := x % 256

/-- Big-endian 64-bit serialisation. -/
def be64 (n : Nat) : List Nat :=
  [w8 (n >>> 56), w8 (n >>> 48), w8 (n >>> 40), w8 (n >>> 32),
   w8 (n >>> 24), w8 (n >>> 16), w8 (n >>> 8), w8 n]

/-- SHA-256 message padding. -/
def sha256Pad (msg : List Nat) : List Nat :=
  msg ++ [128] ++ List.replicate ((119 - msg.length % 64) % 64) 0 ++
    be64 (8 * msg.length)

/-- Modelled from the spec: the SHA-256 digest (FIPS 180-4) that §3
invariants 4–5 require for both checksums.  The sources call an external
`SHA256_*` implementation that is compiled out (`#if 0`), so the real digest
function is not part of the sources; this definition is validated below
against the standard test vectors. -/
def sha256 (msg : List Nat) : List Nat :=
  let hfin := (chunksOf 64 (sha256Pad msg)).foldl sha256Compress sha256H0
  (hfin.map fun x => [w8 (x >>> 24), w8 (x >>> 16), w8 (x >>> 8), w8 x]).flatten

/-- The header bytes with the 32 checksum bytes (offsets 32–63) zeroed —
the buffer the source hands to `SHA256` when checking the header. -/
def zeroedChecksumBytes (b : List Nat) : List Nat :=
  b.take 32 ++ List.replicate 32 0 ++ (b.drop 64).take 32

/-- Little-endian byte serialisation of `v` on `n` bytes. -/
def leBytes : Nat → Nat → List Nat
  | 0, _ => []
  | m + 1, v => v % 256 :: leBytes m (v / 256)

/-- A well-formed 96-byte header image with the given ops range, both stored
checksums all-zero (which the stubbed digest accepts). -/
def mkHeader (opsOff opsSize : Nat) : List Nat :=
  leBytes 4 kCowMagicNumber ++ leBytes 2 kCowVersionMajor ++
    leBytes 2 kCowVersionMinor ++ leBytes 4 sizeofCowHeader ++
    leBytes 4 4096 ++ leBytes 8 opsOff ++ leBytes 8 opsSize ++
    List.replicate 32 0 ++ List.replicate 32 0

/-- A minimal well-formed file: header, one payload byte, empty op table at
offset 96. -/
def minFile : List Nat := mkHeader 96 0 ++ [0]

/-- The header `Parse` yields on `minFile`. -/
def minHdr : CowHeader := decodeHeader (minFile.take sizeofCowHeader)

/-- A 96-byte file whose header declares `ops_offset = 0` (below
`sizeof(Header)`) and `ops_size = 1` (not a multiple of
`sizeof(Operation)`). -/
def oddFile : List Nat := mkHeader 0 1

/-- A 96-byte file whose header declares `ops_offset = 200`, beyond the end
of the file. -/
def farOffsetFile : List Nat := mkHeader 200 0

/-- The 28 op-table bytes of `opsFile`. -/
def opsBytes : List Nat := List.replicate 28 171

/-- A 124-byte file with one operation record at `ops_offset = 96` and the
stored op-table checksum all-zero. -/
def opsFile : List Nat := mkHeader 96 28 ++ opsBytes

/-- The header `Parse` yields on `opsFile`. -/
def opsHdr : CowHeader := decodeHeader (opsFile.take sizeofCowHeader)

/-- A 99-byte file with a two-byte payload region: `ops_offset = 98`, empty
op table. -/
def gapFile : List Nat := mkHeader 98 0 ++ [0, 0, 0]

/-- The header `Parse` yields on `gapFile`. -/
def gapHdr : CowHeader := decodeHeader (gapFile.take sizeofCowHeader)

/-- Result of a daemon-client operation: the returned value, a `CHECK`
assertion failure (which aborts the process in the source), or an
out-of-bounds `std::vector` access (undefined behaviour in the source). -/
inductive CRes (α : Type) where
  | abort : CRes α
  | oob : CRes α
  | ok : α → CRes α
deriving DecidableEq, Repr

/-- The environment the client talks to: whether `socket_local_client`
succeeds for a socket name, whether `Sendmsg` succeeds for a message on a
socket, and the string `Receivemsg` yields after a given message was sent
(its built-in default reply on timeout or receive failure is the literal
string `fail`, so every such outcome is covered by a world whose reply is
that string). -/
structure DaemonWorld where
  connectOk : List Char → Bool
  sendOk : List Char → List Char → Bool
  reply : List Char → List Char → List Char

/-- Substring test, modelling `std::string::find(needle) != npos`. -/
def hasSub (needle : List Char) : List Char → Bool
  | [] => needle.isPrefixOf []
  | c :: t => needle.isPrefixOf (c :: t) || hasSub needle t

/-- The literal `query`. -/
def queryMsg : List Char := ['q', 'u', 'e', 'r', 'y']

/-- The literal `terminate-request`. -/
def termMsg : List Char :=
  ['t', 'e', 'r', 'm', 'i', 'n', 'a', 't', 'e', '-',
   'r', 'e', 'q', 'u', 'e', 's', 't']

/-- The literal `fail`. -/
def failStr : List Char := ['f', 'a', 'i', 'l']

/-- The literal `passive`. -/
def passiveStr : List Char := ['p', 'a', 's', 's', 'i', 'v', 'e']

/-- The literal `active`. -/
def activeStr : List Char := ['a', 'c', 't', 'i', 'v', 'e']

/-- The literal `success`. -/
def successStr : List Char := ['s', 'u', 'c', 'c', 'e', 's', 's']

/-- The message `start,<cow>,<backing>,<control>`. -/
def startMsg (cow backing control : List Char) : List Char :=
  ['s', 't', 'a', 'r', 't', ','] ++ cow ++ [','] ++ backing ++ [','] ++ control

/-- Modelled from the spec: `GetSocketNameFirstStage` is declared outside the
sources; the spec only requires two configured names. -/
def firstStageSocket : List Char := ['s', 'n', 'a', 'p', 'u', 's', 'e', 'r', 'd']

/-- Modelled from the spec: `GetSocketNameSecondStage`, the second configured
socket name, distinct from the first. -/
def secondStageSocket : List Char :=
  ['s', 'n', 'a', 'p', 'u', 's', 'e', 'r', 'd', '2']

/-- Modelled from the spec: the retry budget `MAX_CONNECT_RETRY_COUNT` is a
constant declared outside the sources; its value is not given and no claim
depends on it. -/
def MAX_CONNECT_RETRY_COUNT : Nat := 10

/-- `SnapuserdClient::ConnectToServerSocket`: connect, send `query`, then
classify the reply — `fail` first, then `passive` (both close and return
false), then the `CHECK` that `active` occurs (abort otherwise). -/
def ConnectToServerSocket (w : DaemonWorld) (socketname : List Char) : CRes Bool :=
  if !w.connectOk socketname then .ok false
  else if !w.sendOk socketname queryMsg then .ok false
  else
    let str := w.reply socketname queryMsg
    if hasSub failStr str then .ok false
    else if hasSub passiveStr str then .ok false
    else if hasSub activeStr str then .ok true
    else .abort

/-- `SnapuserdClient::ConnectToServer`: try the first-stage socket, then the
second-stage socket; the payload records which socket is now connected
(`none` when both attempts failed). -/
def ConnectToServer (w : DaemonWorld) : CRes (Option (List Char)) :=
  match ConnectToServerSocket w firstStageSocket with
  | .abort => .abort
  | .oob => .oob
  | .ok true => .ok (some firstStageSocket)
  | .ok false =>
    match ConnectToServerSocket w secondStageSocket with
    | .abort => .abort
    | .oob => .oob
    | .ok true => .ok (some secondStageSocket)
    | .ok false => .ok none

/-- `SnapuserdClient::InitializeSnapuserd`: connect, send `start,…`, fail on
a reply carrying `fail`, otherwise report success. -/
def InitializeSnapuserd (w : DaemonWorld) (cow backing control : List Char) :
    CRes Int :=
  match ConnectToServer w with
  | .abort => .abort
  | .oob => .oob
  | .ok none => .ok (-1)
  | .ok (some s) =>
    let msg := startMsg cow backing control
    if !w.sendOk s msg then .ok (-1)
    else if hasSub failStr (w.reply s msg) then .ok (-1)
    else .ok 0

/-- The parent's poll loop in `SnapuserdClient::StartSnapuserdaemon`: retry
`ConnectToServer` up to the budget; exhaustion reports failure. -/
def pollConnect (w : DaemonWorld) : Nat → CRes Int
  | 0 => .ok (-1)
  | n + 1 =>
    match ConnectToServer w with
    | .abort => .abort
    | .oob => .oob
    | .ok none => pollConnect w n
    | .ok (some _) => .ok 0

/-- `SnapuserdClient::StartSnapuserdaemon`: fork/exec the daemon (the child
is not modelled — it never returns into the client), then poll for a
successful connect. -/
def StartSnapuserdaemon (w : DaemonWorld) (_socketname : List Char) : CRes Int :=
  pollConnect w MAX_CONNECT_RETRY_COUNT

/-- The device-binding loop of `RestartSnapuserd`: for each entry, elements
0, 1 and 2 are read with no length check (`.oob` when absent), then
`InitializeSnapuserd` is called and its return value is discarded. -/
def restartLoop (w : DaemonWorld) : List (List (List Char)) → CRes Int
  | [] => .ok 0
  | t :: rest =>
    match t.get? 0, t.get? 1, t.get? 2 with
    | some c, some b, some d =>
      match InitializeSnapuserd w c b d with
      | .abort => .abort
      | .oob => .oob
      | .ok _ => restartLoop w rest
    | _, _, _ => .oob

/-- `SnapuserdClient::RestartSnapuserd`: connect, send `terminate-request`,
fail on a `fail` reply, `CHECK` for `success`, start the second-stage daemon,
then run the device-binding loop and return 0. -/
def RestartSnapuserd (w : DaemonWorld) (vec : List (List (List Char))) :
    CRes Int :=
  match ConnectToServer w with
  | .abort => .abort
  | .oob => .oob
  | .ok none => .ok (-1)
  | .ok (some s) =>
    if !w.sendOk s termMsg then .ok (-1)
    else
      let str := w.reply s termMsg
      if hasSub failStr str then .ok (-1)
      else if !hasSub successStr str then .abort
      else
        match StartSnapuserdaemon w secondStageSocket with
        | .abort => .abort
        | .oob => .oob
        | .ok r => if r < 0 then .ok (-1) else restartLoop w vec

/-- Success of every step of `RestartSnapuserd` before its device-binding
loop: a connect that lands on some socket `s`, a delivered
`terminate-request`, a reply carrying `success` and not `fail`, and a
successful second-stage daemon start. -/
def restartPreOk (w : DaemonWorld) : Bool :=
  match ConnectToServer w with
  | .ok (some s) =>
    w.sendOk s termMsg && !hasSub failStr (w.reply s termMsg) &&
      hasSub successStr (w.reply s termMsg) &&
      (match pollConnect w MAX_CONNECT_RETRY_COUNT with
       | .ok r => decide (0 ≤ r)
       | _ => false)
  | _ => false

/-- A world in which every daemon interaction succeeds: queries are answered
`active`, everything else `success`. -/
def worldAllOk : DaemonWorld :=
  { connectOk := fun _ => true
    sendOk := fun _ _ => true
    reply := fun _ m =>
      match m with
      | 'q' :: _ => activeStr
      | _ => successStr }

/-- A world in which queries are answered `active`, the terminate request
`success`, but every `start,…` binding request is answered `fail`. -/
def worldBindFails : DaemonWorld :=
  { connectOk := fun _ => true
    sendOk := fun _ _ => true
    reply := fun _ m =>
      match m with
      | 'q' :: _ => activeStr
      | 't' :: _ => successStr
      | _ => failStr }

/-- A world whose reply to every message contains both `active` and `fail`
as substrings. -/
def worldActiveFail : DaemonWorld :=
  { connectOk := fun _ => true
    sendOk := fun _ _ => true
    reply := fun _ _ =>
      ['a', 'c', 't', 'i', 'v', 'e', 'f', 'a', 'i', 'l'] }

example : Parse minFile = .ok minHdr := by decide
example : Parse oddFile = .ok (decodeHeader oddFile) := by decide
example : Parse opsFile = .ok opsHdr := by decide
example : Parse gapFile = .ok gapHdr := by decide
example : Parse farOffsetFile = .error .RangeError := by decide
example : RestartSnapuserd worldBindFails [[['c'], ['b'], ['d']]] = .ok 0 := by decide
example : InitializeSnapuserd worldBindFails ['c'] ['b'] ['d'] = .ok (-1) := by decide
example : ConnectToServerSocket worldActiveFail firstStageSocket = .ok false := by decide

/-- SHA-256 sanity: FIPS 180-4 one-block test vector for `abc`. -/
theorem sha256_abc :
    sha256 [0x61, 0x62, 0x63] =
      [0xba, 0x78, 0x16, 0xbf, 0x8f, 0x01, 0xcf, 0xea, 0x41, 0x41, 0x40, 0xde,
       0x5d, 0xae, 0x22, 0x23, 0xb0, 0x03, 0x61, 0xa3, 0x96, 0x17, 0x7a, 0x9c,
       0xb4, 0x10, 0xff, 0x61, 0xf2, 0x00, 0x15, 0xad] := by decide

/-- SHA-256 sanity: FIPS 180-4 test vector for the empty message. -/
theorem sha256_empty :
    sha256 [] =
      [0xe3, 0xb0, 0xc4, 0x42, 0x98, 0xfc, 0x1c, 0x14, 0x9a, 0xfb, 0xf4, 0xc8,
       0x99, 0x6f, 0xb9, 0x24, 0x27, 0xae, 0x41, 0xe4, 0x64, 0x9b, 0x93, 0x4c,
       0xa4, 0x95, 0x99, 0x1b, 0x78, 0x52, 0xb8, 0x55] := by decide

/-- A successful `Parse` pins the header to the decoded bytes and
establishes the two range facts the source checked: `ops_offset < fd_size`
and `ops_size ≤ fd_size - ops_offset`. -/
theorem parse_ok_range (file : List Nat) (h : CowHeader)
    (hp : Parse file = .ok h) :
    h.ops_offset < file.length ∧ h.ops_offset + h.ops_size ≤ file.length ∧
      h = decodeHeader (file.take sizeofCowHeader) := by
  unfold Parse at hp
  split at hp
  · exact absurd hp (by simp)
  · unfold parseChecks at hp
    split at hp
    · exact absurd hp (by simp)
    split at hp
    · exact absurd hp (by simp)
    split at hp
    · exact absurd hp (by simp)
    split at hp
    · exact absurd hp (by simp)
    split at hp
    · exact absurd hp (by simp)
    split at hp
    · exact absurd hp (by simp)
    · cases hp
      refine ⟨by omega, by omega, rfl⟩

/-- C1: on a successfully parsed reader, `GetRawBytes` rejects every
`(offset, len)` with `offset < sizeof(Header)`, `offset ≥ ops_offset`,
`len ≥ fd_size`, or overflow-safe `offset + len > ops_offset` — returning
`RangeError` with no read issued, for every possible behaviour `rv` of the
byte source.  The fourth disjunct is over exact naturals, so a pair whose
64-bit sum wraps is covered; `fd_size < 2 ^ 63` reflects that the size was
obtained through a nonnegative `off_t`. -/
theorem read_raw_rejects_out_of_range (file : List Nat) (h : CowHeader)
    (offset len : Nat) (rv : Option Nat)
    (hp : Parse file = .ok h) (hfd : file.length < 2 ^ 63)
    (hviol : offset < sizeofCowHeader ∨ h.ops_offset ≤ offset ∨
      file.length ≤ len ∨ h.ops_offset < offset + len) :
    GetRawBytes file h offset len rv = (.error .RangeError, 0) := by
  have hrange := (parse_ok_range file h hp).1
  have h63 : (2 : Nat) ^ 63 = 9223372036854775808 := by norm_num
  have hcond : offset < sizeofCowHeader ∨ h.ops_offset ≤ offset ∨
      file.length ≤ len ∨ h.ops_offset < (offset + len) % 2 ^ 64 := by
    by_cases h1 : offset < sizeofCowHeader
    · exact Or.inl h1
    by_cases h2 : h.ops_offset ≤ offset
    · exact Or.inr (Or.inl h2)
    by_cases h3 : file.length ≤ len
    · exact Or.inr (Or.inr (Or.inl h3))
    refine Or.inr (Or.inr (Or.inr ?_))
    have hov : offset + len < 2 ^ 64 := by
      have h64 : (2 : Nat) ^ 64 = 18446744073709551616 := by norm_num
      omega
    rw [Nat.mod_eq_of_lt hov]
    rcases hviol with hv | hv | hv | hv
    · exact absurd hv h1
    · exact absurd hv h2
    · exact absurd hv h3
    · exact hv
  unfold GetRawBytes
  rw [if_pos hcond]

/-- Witness for C1: the minimal parsed file rejects `offset = 0`. -/
theorem read_raw_rejects_witness :
    GetRawBytes minFile minHdr 0 0 none = (.error .RangeError, 0) :=
  read_raw_rejects_out_of_range minFile minHdr 0 0 none (by decide)
    (by decide) (Or.inl (by decide))

/-- C2 counterexample: a file of exactly `sizeof(Header)` bytes whose header
declares `ops_offset = 0 < sizeof(Header)` and an `ops_size` that is not a
multiple of `sizeof(Operation)` parses successfully — `Parse` checks neither
condition and does not return `RangeError`. -/
theorem parse_accepts_header_sized_file :
    oddFile.length = sizeofCowHeader ∧
    Parse oddFile = .ok (decodeHeader oddFile) ∧
    (decodeHeader oddFile).ops_offset < sizeofCowHeader ∧
    (decodeHeader oddFile).ops_size % sizeofCowOperation ≠ 0 := by decide

/-- C2 amended: `Parse` validates exactly `ops_offset < file_size` and
(overflow-safely, by subtraction) `ops_offset + ops_size ≤ file_size`, and a
violation of either fails with `RangeError`; it validates neither
`ops_offset ≥ sizeof(Header)` nor divisibility of `ops_size`. -/
theorem parse_validates_ops_range (file : List Nat) :
    (∀ h, Parse file = .ok h →
      h.ops_offset < file.length ∧ h.ops_offset + h.ops_size ≤ file.length) ∧
    (sizeofCowHeader ≤ file.length →
      (file.length ≤ (decodeHeader (file.take sizeofCowHeader)).ops_offset ∨
        file.length - (decodeHeader (file.take sizeofCowHeader)).ops_offset <
          (decodeHeader (file.take sizeofCowHeader)).ops_size) →
      Parse file = .error .RangeError) := by
  constructor
  · intro h hp
    exact ⟨(parse_ok_range file h hp).1, (parse_ok_range file h hp).2.1⟩
  · intro hlen hbad
    unfold Parse
    rw [if_neg (by omega)]
    unfold parseChecks
    rcases hbad with hb | hb
    · rw [if_pos hb]
    · by_cases h1 : file.length ≤ (decodeHeader (file.take sizeofCowHeader)).ops_offset
      · rw [if_pos h1]
      · rw [if_neg h1, if_pos hb]

/-- Witness for the amended C2: an `ops_offset` beyond the file end fails
with `RangeError`. -/
theorem parse_validates_ops_range_witness :
    Parse farOffsetFile = .error .RangeError :=
  (parse_validates_ops_range farOffsetFile).2 (by decide) (Or.inl (by decide))

/-- C3: `Parse` accepts `minFile`, whose stored header checksum is 32 zero
bytes, although the SHA-256 digest of the header bytes with the checksum
field zeroed differs from the stored value — the source's stubbed `SHA256`
makes the comparison succeed for any all-zero stored checksum, so the
mandated `ChecksumMismatch` never occurs. -/
theorem parse_ignores_true_header_digest :
    Parse minFile = .ok minHdr ∧
    minHdr.header_checksum = List.replicate 32 0 ∧
    sha256 (zeroedChecksumBytes (minFile.take sizeofCowHeader)) ≠
      minHdr.header_checksum := by decide

/-- C4: `GetOpIter` succeeds on `opsFile`, whose stored op-table checksum is
32 zero bytes, although the SHA-256 digest of the op-table bytes differs
from the stored value — the stubbed `SHA256` accepts any all-zero stored
checksum regardless of the table contents, so the mandated
`ChecksumMismatch` never occurs. -/
theorem op_iter_ignores_true_ops_digest :
    Parse opsFile = .ok opsHdr ∧
    GetOpIter opsFile opsHdr = .ok (CowOpIter.init opsBytes) ∧
    sha256 opsBytes ≠ opsHdr.ops_checksum := by decide

/-- C6 counterexample: an in-range request for 2 bytes on the parsed
`gapFile` where the single `::read` legally returns 1 byte is reported as
success with 1 byte — `GetRawBytes` does not loop and a successful call can
report fewer bytes than requested. -/
theorem read_raw_short_read_succeeds :
    Parse gapFile = .ok gapHdr ∧
    validReadCount gapFile 96 2 1 ∧
    GetRawBytes gapFile gapHdr 96 2 (some 1) = (.ok 1, 1) ∧
    (1 : Nat) < 2 :=
  ⟨by decide, ⟨by decide, by decide⟩, by decide, by decide⟩

/-- C6 amended: on an in-range request `GetRawBytes` issues exactly one read
on the byte source and returns its outcome as-is: a negative result is
`IoError`, and a count of `r` bytes — even fewer than `len` — is reported as
success with `r`. -/
theorem read_raw_single_read (file : List Nat) (h : CowHeader)
    (offset len : Nat) (rv : Option Nat)
    (hin : ¬(offset < sizeofCowHeader ∨ h.ops_offset ≤ offset ∨
      file.length ≤ len ∨ h.ops_offset < (offset + len) % 2 ^ 64)) :
    GetRawBytes file h offset len rv =
      ((match rv with
        | none => Except.error CowError.IoError
        | some r => Except.ok r), 1) := by
  unfold GetRawBytes
  rw [if_neg hin]
  cases rv <;> rfl

/-- Witness for the amended C6: the short read of the counterexample input
goes through the single-read path. -/
theorem read_raw_single_read_witness :
    GetRawBytes gapFile gapHdr 96 2 (some 1) = (.ok 1, 1) :=
  read_raw_single_read gapFile gapHdr 96 2 (some 1) (by decide)

/-- Driving the iterator from byte cursor `pos` yields exactly the remaining
whole records, in stored order, provided the remaining length is a multiple
of the record size and the fuel covers the record count. -/
theorem collect_records (buf : List Nat) :
    ∀ fuel pos, pos ≤ buf.length →
      (buf.length - pos) % sizeofCowOperation = 0 →
      (buf.length - pos) / sizeofCowOperation ≤ fuel →
      collectOps ⟨buf, pos, !hasNextAt buf pos⟩ fuel =
        (List.range ((buf.length - pos) / sizeofCowOperation)).map
          (fun k => (buf.drop (pos + sizeofCowOperation * k)).take
            sizeofCowOperation) := by
  intro fuel
  induction fuel with
  | zero =>
    intro pos hpos hmod hfuel
    rw [Nat.le_zero.mp hfuel]
    rfl
  | succ fuel ih =>
    intro pos hpos hmod hfuel
    by_cases hn : hasNextAt buf pos = true
    · have hcond : pos < buf.length ∧ 28 ≤ buf.length - pos := by
        simpa [hasNextAt, sizeofCowOperation] using hn
      have hstep : collectOps ⟨buf, pos, !hasNextAt buf pos⟩ (fuel + 1) =
          (buf.drop pos).take sizeofCowOperation ::
            collectOps ⟨buf, pos + sizeofCowOperation,
              !hasNextAt buf (pos + sizeofCowOperation)⟩ fuel := by
        simp only [collectOps, CowOpIter.Done, CowOpIter.Get, CowOpIter.Next, hn,
          Bool.not_true, if_neg]
        simp
      rw [hstep,
        ih (pos + sizeofCowOperation)
          (by simp only [sizeofCowOperation]; omega)
          (by simp only [sizeofCowOperation] at hmod ⊢; omega)
          (by simp only [sizeofCowOperation] at hfuel ⊢; omega)]
      have hm : (buf.length - pos) / sizeofCowOperation =
          (buf.length - (pos + sizeofCowOperation)) / sizeofCowOperation + 1 := by
        simp only [sizeofCowOperation] at hmod ⊢
        omega
      rw [hm, List.range_succ_eq_map, List.map_cons, List.map_map]
      refine List.cons_eq_cons.mpr ⟨by simp, List.map_congr_left fun k _ => ?_⟩
      have harith : pos + sizeofCowOperation + sizeofCowOperation * k =
          pos + sizeofCowOperation * (k + 1) := by ring
      simp [Function.comp, harith]
    · have hstop : (buf.length - pos) / sizeofCowOperation = 0 := by
        simp only [hasNextAt, sizeofCowOperation, decide_eq_true_eq] at hn ⊢
        omega
      rw [hstop]
      simp only [collectOps, CowOpIter.Done]
      rw [if_pos (by simp [hn])]
      rfl

/-- After `n` calls to `Next`, the iterator built on `buf` sits at byte
cursor `28 * n` with its done flag re-evaluated there. -/
theorem next_iterate (buf : List Nat) : ∀ n,
    CowOpIter.Next^[n] (CowOpIter.init buf) =
      { ops := buf, pos := sizeofCowOperation * n
        done := !hasNextAt buf (sizeofCowOperation * n) } := by
  intro n
  induction n with
  | zero => simp [CowOpIter.init]
  | succ n ih =>
    rw [Function.iterate_succ_apply', ih]
    have harith : sizeofCowOperation * n + sizeofCowOperation =
        sizeofCowOperation * (n + 1) := by ring
    simp [CowOpIter.Next, harith]

/-- C5: on a buffer whose length is a multiple of `sizeof(Operation)`, the
iterator yields exactly `ops_size / sizeof(Operation)` records in stored
order (the `k`-th record being the 28 bytes at offset `28 * k`) under any
fuel covering that count — surplus driving steps add nothing, because after
the final record the iterator is done — every record it reads lies entirely
inside the buffer, and an empty buffer gives an iterator that is done
immediately after construction. -/
theorem op_iter_yields_all_records (buf : List Nat)
    (hdvd : buf.length % sizeofCowOperation = 0) :
    (∀ fuel, buf.length / sizeofCowOperation ≤ fuel →
      collectOps (CowOpIter.init buf) fuel =
        (List.range (buf.length / sizeofCowOperation)).map
          (fun k => (buf.drop (sizeofCowOperation * k)).take
            sizeofCowOperation)) ∧
    (CowOpIter.Next^[buf.length / sizeofCowOperation]
        (CowOpIter.init buf)).Done = true ∧
    (∀ k, k < buf.length / sizeofCowOperation →
      sizeofCowOperation * k + sizeofCowOperation ≤ buf.length) ∧
    (buf.length = 0 → (CowOpIter.init buf).Done = true) := by
  refine ⟨?_, ?_, ?_, ?_⟩
  · intro fuel hfuel
    have h := collect_records buf fuel 0
      (Nat.zero_le _) (by simpa using hdvd) (by simpa using hfuel)
    simpa [CowOpIter.init] using h
  · rw [next_iterate buf (buf.length / sizeofCowOperation)]
    have hend : sizeofCowOperation * (buf.length / sizeofCowOperation) =
        buf.length := by
      simp only [sizeofCowOperation] at hdvd ⊢
      omega
    simp [CowOpIter.Done, hasNextAt, hend]
  · intro k hk
    simp only [sizeofCowOperation] at hdvd hk ⊢
    omega
  · intro h0
    simp [CowOpIter.init, CowOpIter.Done, hasNextAt, h0]

/-- Witness for C5: a 56-byte buffer yields its two records even with
surplus fuel, and two `Next` steps leave the iterator done. -/
theorem op_iter_yields_all_records_witness :
    collectOps (CowOpIter.init (List.replicate 56 0)) 5 =
      (List.range ((List.replicate 56 0).length / sizeofCowOperation)).map
        (fun k => ((List.replicate 56 0).drop (sizeofCowOperation * k)).take
          sizeofCowOperation) ∧
    (CowOpIter.Next^[(List.replicate 56 0).length / sizeofCowOperation]
        (CowOpIter.init (List.replicate 56 0))).Done = true :=
  ⟨(op_iter_yields_all_records (List.replicate 56 0) (by decide)).1 5
      (by decide),
    (op_iter_yields_all_records (List.replicate 56 0) (by decide)).2.1⟩

/-- A `query` attempt reports success exactly when the connect and send
succeeded and the reply avoids `fail` and `passive` but carries `active`. -/
theorem socket_attempt_true_iff (w : DaemonWorld) (s : List Char) :
    ConnectToServerSocket w s = .ok true ↔
      (w.connectOk s = true ∧ w.sendOk s queryMsg = true ∧
        hasSub failStr (w.reply s queryMsg) = false ∧
        hasSub passiveStr (w.reply s queryMsg) = false ∧
        hasSub activeStr (w.reply s queryMsg) = true) := by
  unfold ConnectToServerSocket
  cases hc : w.connectOk s <;> cases hs : w.sendOk s queryMsg <;>
    cases hf : hasSub failStr (w.reply s queryMsg) <;>
    cases hpv : hasSub passiveStr (w.reply s queryMsg) <;>
    cases ha : hasSub activeStr (w.reply s queryMsg) <;>
      simp [hc, hs, hf, hpv, ha]

/-- A `query` attempt reports failure-and-continue exactly when the connect
or the send failed, or the reply carries `fail` or `passive`. -/
theorem socket_attempt_false_iff (w : DaemonWorld) (s : List Char) :
    ConnectToServerSocket w s = .ok false ↔
      (w.connectOk s = false ∨ w.sendOk s queryMsg = false ∨
        hasSub failStr (w.reply s queryMsg) = true ∨
        hasSub passiveStr (w.reply s queryMsg) = true) := by
  unfold ConnectToServerSocket
  cases hc : w.connectOk s <;> cases hs : w.sendOk s queryMsg <;>
    cases hf : hasSub failStr (w.reply s queryMsg) <;>
    cases hpv : hasSub passiveStr (w.reply s queryMsg) <;>
    cases ha : hasSub activeStr (w.reply s queryMsg) <;>
      simp [hc, hs, hf, hpv, ha]

/-- A `query` attempt never performs an out-of-bounds access. -/
theorem socket_attempt_not_oob (w : DaemonWorld) (s : List Char) :
    ConnectToServerSocket w s ≠ .oob := by
  unfold ConnectToServerSocket
  cases hc : w.connectOk s <;> cases hs : w.sendOk s queryMsg <;>
    cases hf : hasSub failStr (w.reply s queryMsg) <;>
    cases hpv : hasSub passiveStr (w.reply s queryMsg) <;>
    cases ha : hasSub activeStr (w.reply s queryMsg) <;>
      simp [hc, hs, hf, hpv, ha]

/-- `ConnectToServer` never performs an out-of-bounds access. -/
theorem connect_not_oob (w : DaemonWorld) : ConnectToServer w ≠ .oob := by
  unfold ConnectToServer
  rcases h1 : ConnectToServerSocket w firstStageSocket with _ | _ | b
  · simp
  · exact absurd h1 (socket_attempt_not_oob w _)
  · rcases b with _ | _
    · rcases h2 : ConnectToServerSocket w secondStageSocket with _ | _ | b2
      · simp
      · exact absurd h2 (socket_attempt_not_oob w _)
      · rcases b2 with _ | _ <;> simp
    · simp

/-- The start-up poll never performs an out-of-bounds access. -/
theorem poll_not_oob (w : DaemonWorld) : ∀ n, pollConnect w n ≠ .oob := by
  intro n
  induction n with
  | zero => simp [pollConnect]
  | succ n ih =>
    unfold pollConnect
    rcases hc : ConnectToServer w with _ | _ | so
    · simp
    · exact absurd hc (connect_not_oob w)
    · rcases so with _ | s
      · exact ih
      · simp

/-- `InitializeSnapuserd` never performs an out-of-bounds access. -/
theorem init_not_oob (w : DaemonWorld) (c b d : List Char) :
    InitializeSnapuserd w c b d ≠ .oob := by
  unfold InitializeSnapuserd
  rcases hc : ConnectToServer w with _ | _ | so
  · simp
  · exact absurd hc (connect_not_oob w)
  · rcases so with _ | s
    · simp
    · by_cases hs : w.sendOk s (startMsg c b d) <;>
        by_cases hf : hasSub failStr (w.reply s (startMsg c b d)) <;>
        simp [hs, hf]

/-- Once connected somewhere, a binding request returns a plain code: `-1`
on a failed send or a `fail` reply, `0` otherwise. -/
theorem init_returns_code (w : DaemonWorld) (c b d s : List Char)
    (hconn : ConnectToServer w = .ok (some s)) :
    InitializeSnapuserd w c b d = .ok (-1) ∨
      InitializeSnapuserd w c b d = .ok 0 := by
  unfold InitializeSnapuserd
  rw [hconn]
  by_cases hs : w.sendOk s (startMsg c b d) <;>
    by_cases hf : hasSub failStr (w.reply s (startMsg c b d)) <;>
    simp [hs, hf]

/-- When connects land somewhere, the device-binding loop of
`RestartSnapuserd` runs to completion over well-formed triples — whatever
each `InitializeSnapuserd` returned. -/
theorem restart_loop_ok (w : DaemonWorld) (s : List Char)
    (hconn : ConnectToServer w = .ok (some s)) :
    ∀ vec, (∀ t ∈ vec, 3 ≤ t.length) → restartLoop w vec = .ok 0 := by
  intro vec
  induction vec with
  | nil => intro _; rfl
  | cons t rest ih =>
    intro h3
    have ht : 3 ≤ t.length := h3 t (by simp)
    obtain ⟨a, b, c, t', rfl⟩ : ∃ a b c t', t = a :: b :: c :: t' := by
      rcases t with _ | ⟨a, _ | ⟨b, _ | ⟨c, t'⟩⟩⟩
      · simp at ht
      · simp at ht
      · simp at ht
      · exact ⟨a, b, c, t', rfl⟩
    have hstep : restartLoop w ((a :: b :: c :: t') :: rest) =
        match InitializeSnapuserd w a b c with
        | .abort => .abort
        | .oob => .oob
        | .ok _ => restartLoop w rest := rfl
    rw [hstep]
    rcases init_returns_code w a b c s hconn with hi | hi <;> rw [hi] <;>
      exact ih fun u hu => h3 u (by simp [hu])

/-- Over well-formed triples the device-binding loop never performs an
out-of-bounds access. -/
theorem restart_loop_not_oob (w : DaemonWorld) :
    ∀ vec, (∀ t ∈ vec, 3 ≤ t.length) → restartLoop w vec ≠ .oob := by
  intro vec
  induction vec with
  | nil => intro _; simp [restartLoop]
  | cons t rest ih =>
    intro h3
    have ht : 3 ≤ t.length := h3 t (by simp)
    obtain ⟨a, b, c, t', rfl⟩ : ∃ a b c t', t = a :: b :: c :: t' := by
      rcases t with _ | ⟨a, _ | ⟨b, _ | ⟨c, t'⟩⟩⟩
      · simp at ht
      · simp at ht
      · simp at ht
      · exact ⟨a, b, c, t', rfl⟩
    have hstep : restartLoop w ((a :: b :: c :: t') :: rest) =
        match InitializeSnapuserd w a b c with
        | .abort => .abort
        | .oob => .oob
        | .ok _ => restartLoop w rest := rfl
    rw [hstep]
    rcases hi : InitializeSnapuserd w a b c with _ | _ | v
    · simp
    · exact absurd hi (init_not_oob w a b c)
    · exact ih fun u hu => h3 u (by simp [hu])

/-- C7 counterexample: in a world where the terminate handshake and daemon
start succeed but every `start,…` binding request is answered `fail`,
`InitializeSnapuserd` fails with `-1` for the triple, yet
`RestartSnapuserd` still returns `0` — the loop discards the result. -/
theorem restart_ignores_bind_failure :
    InitializeSnapuserd worldBindFails ['c'] ['b'] ['d'] = .ok (-1) ∧
    RestartSnapuserd worldBindFails [[['c'], ['b'], ['d']]] = .ok 0 :=
  ⟨by decide, by decide⟩

/-- C7 amended: over well-formed triples, `RestartSnapuserd` returns `0`
exactly when its pre-loop steps (connect, terminate-request send and reply
classification, second-stage daemon start) succeed — independent of the
outcome of every per-triple `InitializeSnapuserd`, whose return value the
loop ignores. -/
theorem restart_ok_iff_pre_steps (w : DaemonWorld)
    (vec : List (List (List Char))) (h3 : ∀ t ∈ vec, 3 ≤ t.length) :
    RestartSnapuserd w vec = .ok 0 ↔ restartPreOk w = true := by
  unfold RestartSnapuserd restartPreOk StartSnapuserdaemon
  rcases hc : ConnectToServer w with _ | _ | so
  · simp
  · simp
  · rcases so with _ | s
    · simp
    · by_cases hsend : w.sendOk s termMsg
      · by_cases hfail : hasSub failStr (w.reply s termMsg)
        · simp [hsend, hfail]
        · by_cases hsucc : hasSub successStr (w.reply s termMsg)
          · rcases hpoll : pollConnect w MAX_CONNECT_RETRY_COUNT with _ | _ | r
            · simp [hsend, hfail, hsucc]
            · exact absurd hpoll (poll_not_oob w _)
            · by_cases hr : r < 0
              · have hr0 : ¬(0 : Int) ≤ r := by omega
                simp [hsend, hfail, hsucc, hr, hr0]
              · have hr0 : (0 : Int) ≤ r := by omega
                have hloop := restart_loop_ok w s hc vec h3
                simp [hsend, hfail, hsucc, hr, hr0, hloop]
          · simp [hsend, hfail, hsucc]
      · simp [hsend]

/-- Witness for the amended C7: in the all-success world with no triples,
restart returns 0 and the pre-loop steps are judged successful. -/
theorem restart_ok_iff_pre_steps_witness :
    RestartSnapuserd worldAllOk [] = .ok 0 :=
  (restart_ok_iff_pre_steps worldAllOk [] (by simp)).mpr (by decide)

/-- C8: `ConnectToServer` succeeds on the first-stage socket exactly when
that attempt classifies `active`; it lands on the second-stage socket
exactly when the first attempt failed-and-continued and the second
classified `active`; it reports overall failure exactly when both attempts
failed-and-continued; an attempt succeeds only on an `active` reply with
`fail` and `passive` absent, and an attempt fails-and-continues exactly on a
connect error, a send error, or a `fail` or `passive` reply. -/
theorem connect_fallback_chain (w : DaemonWorld) :
    (ConnectToServer w = .ok (some firstStageSocket) ↔
      ConnectToServerSocket w firstStageSocket = .ok true) ∧
    (ConnectToServer w = .ok (some secondStageSocket) ↔
      (ConnectToServerSocket w firstStageSocket = .ok false ∧
        ConnectToServerSocket w secondStageSocket = .ok true)) ∧
    (ConnectToServer w = .ok none ↔
      (ConnectToServerSocket w firstStageSocket = .ok false ∧
        ConnectToServerSocket w secondStageSocket = .ok false)) ∧
    (∀ s, ConnectToServerSocket w s = .ok true ↔
      (w.connectOk s = true ∧ w.sendOk s queryMsg = true ∧
        hasSub failStr (w.reply s queryMsg) = false ∧
        hasSub passiveStr (w.reply s queryMsg) = false ∧
        hasSub activeStr (w.reply s queryMsg) = true)) ∧
    (∀ s, ConnectToServerSocket w s = .ok false ↔
      (w.connectOk s = false ∨ w.sendOk s queryMsg = false ∨
        hasSub failStr (w.reply s queryMsg) = true ∨
        hasSub passiveStr (w.reply s queryMsg) = true)) := by
  have hne : firstStageSocket ≠ secondStageSocket := by decide
  refine ⟨?_, ?_, ?_, socket_attempt_true_iff w, socket_attempt_false_iff w⟩ <;>
    · unfold ConnectToServer
      rcases h1 : ConnectToServerSocket w firstStageSocket with _ | _ | b1
      · simp
      · exact absurd h1 (socket_attempt_not_oob w _)
      · rcases b1 with _ | _
        · rcases h2 : ConnectToServerSocket w secondStageSocket with _ | _ | b2
          · simp
          · exact absurd h2 (socket_attempt_not_oob w _)
          · rcases b2 with _ | _ <;> simp [hne, hne.symm]
        · simp [hne, hne.symm]

/-- C9: with vector indexing embedded as an `Option`-returning access, the
out-of-bounds outcome of `RestartSnapuserd` is unreachable for every
environment exactly when every inner vector of the argument has at least the
three entries (cow, base, control) the loop reads unchecked. -/
theorem restart_requires_triples (vec : List (List (List Char))) :
    (∀ w, RestartSnapuserd w vec ≠ .oob) ↔ ∀ t ∈ vec, 3 ≤ t.length := by
  constructor
  · intro hno
    by_contra hbad
    push_neg at hbad
    obtain ⟨t, ht, hlen⟩ := hbad
    have hloop : restartLoop worldAllOk vec = .oob := by
      clear hno
      induction vec with
      | nil => cases ht
      | cons u rest ih =>
        rcases List.mem_cons.mp ht with rfl | hmem
        · rcases t with _ | ⟨x, _ | ⟨y, _ | ⟨z, t3⟩⟩⟩
          · rfl
          · rfl
          · rfl
          · simp at hlen; omega
        · by_cases hu : 3 ≤ u.length
          · obtain ⟨a, b, c, u', rfl⟩ : ∃ a b c u', u = a :: b :: c :: u' := by
              rcases u with _ | ⟨a, _ | ⟨b, _ | ⟨c, u'⟩⟩⟩
              · simp at hu
              · simp at hu
              · simp at hu
              · exact ⟨a, b, c, u', rfl⟩
            have hstep : restartLoop worldAllOk ((a :: b :: c :: u') :: rest) =
                match InitializeSnapuserd worldAllOk a b c with
                | .abort => .abort
                | .oob => .oob
                | .ok _ => restartLoop worldAllOk rest := rfl
            have hinit : InitializeSnapuserd worldAllOk a b c = .ok 0 := rfl
            rw [hstep, hinit]
            exact ih hmem
          · rcases u with _ | ⟨x, _ | ⟨y, _ | ⟨z, u3⟩⟩⟩
            · rfl
            · rfl
            · rfl
            · exact absurd (by simp) hu
    have hrestart : RestartSnapuserd worldAllOk vec =
        restartLoop worldAllOk vec := rfl
    exact hno worldAllOk (hrestart.trans hloop)
  · intro h3 w
    unfold RestartSnapuserd StartSnapuserdaemon
    rcases hc : ConnectToServer w with _ | _ | so
    · simp
    · exact absurd hc (connect_not_oob w)
    · rcases so with _ | s
      · simp
      · by_cases hsend : w.sendOk s termMsg
        · by_cases hfail : hasSub failStr (w.reply s termMsg)
          · simp [hsend, hfail]
          · by_cases hsucc : hasSub successStr (w.reply s termMsg)
            · rcases hpoll : pollConnect w MAX_CONNECT_RETRY_COUNT with _ | _ | r
              · simp [hsend, hfail, hsucc]
              · exact absurd hpoll (poll_not_oob w _)
              · by_cases hr : r < 0
                · simp [hsend, hfail, hsucc, hr]
                · have hloop := restart_loop_not_oob w vec h3
                  simp [hsend, hfail, hsucc, hr, hloop]
            · simp [hsend, hfail, hsucc]
        · simp [hsend]

/-- C10: a reply carrying `fail` as a substring is classified as failure
before `passive`, `active` or `success` are consulted — the query attempt
returns false, a binding request returns `-1`, and the terminate-request
step of restart returns `-1`, even when the same reply also carries
`active` or `success`; conversely a successful query classification and the
`CHECK(active)` abort are only reachable with `fail` absent. -/
theorem fail_reply_is_failure (w : DaemonWorld) :
    (∀ s, w.connectOk s = true → w.sendOk s queryMsg = true →
      hasSub failStr (w.reply s queryMsg) = true →
      ConnectToServerSocket w s = .ok false) ∧
    (∀ s c b d, ConnectToServer w = .ok (some s) →
      w.sendOk s (startMsg c b d) = true →
      hasSub failStr (w.reply s (startMsg c b d)) = true →
      InitializeSnapuserd w c b d = .ok (-1)) ∧
    (∀ s vec, ConnectToServer w = .ok (some s) →
      w.sendOk s termMsg = true →
      hasSub failStr (w.reply s termMsg) = true →
      RestartSnapuserd w vec = .ok (-1)) ∧
    (∀ s, ConnectToServerSocket w s = .ok true →
      hasSub failStr (w.reply s queryMsg) = false) ∧
    (∀ s, ConnectToServerSocket w s = .abort →
      hasSub failStr (w.reply s queryMsg) = false ∧
      hasSub passiveStr (w.reply s queryMsg) = false) := by
  refine ⟨?_, ?_, ?_, ?_, ?_⟩
  · intro s hco hse hfl
    unfold ConnectToServerSocket
    simp [hco, hse, hfl]
  · intro s c b d hconn hse hfl
    unfold InitializeSnapuserd
    rw [hconn]
    simp [hse, hfl]
  · intro s vec hconn hse hfl
    unfold RestartSnapuserd
    rw [hconn]
    simp [hse, hfl]
  · intro s htrue
    exact ((socket_attempt_true_iff w s).mp htrue).2.2.1
  · intro s habort
    unfold ConnectToServerSocket at habort
    by_cases hco : w.connectOk s
    · by_cases hse : w.sendOk s queryMsg
      · by_cases hfl : hasSub failStr (w.reply s queryMsg)
        · simp [hco, hse, hfl] at habort
        · by_cases hpv : hasSub passiveStr (w.reply s queryMsg)
          · simp [hco, hse, hfl, hpv] at habort
          · simp [hfl, hpv]
      · simp [hco, hse] at habort
    · simp [hco] at habort

/-- Witness for C10: a reply carrying both `active` and `fail` is classified
as failure by the query attempt. -/
theorem fail_reply_is_failure_witness :
    ConnectToServerSocket worldActiveFail firstStageSocket = .ok false ∧
    hasSub activeStr (worldActiveFail.reply firstStageSocket queryMsg) = true :=
  ⟨(fail_reply_is_failure worldActiveFail).1 firstStageSocket (by decide)
      (by decide) (by decide),
    by decide⟩
